import Mathlib

/-!
Shallow embedding of the AgentBill SDK core (tracer.ts, wrapper.ts) for
verification of its span-lifecycle, batched-export, and call-interception
behaviour.

Conventions of the embedding:
* JavaScript `Map` objects are modelled as association lists with the
  insertion-order semantics of `Map.set` / `Map.get` / `Map.delete`.
* Every call to `Date.now()` in the source becomes an explicit `Nat`
  millisecond argument, and every draw from the random id source becomes an
  explicit `String` argument, so all operations are pure functions of state.
* The network send performed by `exportSpans` is modelled by returning the
  batch that is handed to `fetch`; the outcome of the send is an explicit
  parameter wherever it matters.
* JavaScript truthiness of `x || d` on strings and numbers is modelled by
  `jsOrStr` / `jsOrInt` (empty string and zero are falsy).
-/

namespace AgentBill

/-- A JavaScript runtime value as it reaches `encodeValue`: a string, a number
with `Number.isInteger` true, a non-integer number (kept by its decimal
representation, which this development never inspects), a boolean, or any
other value identified by its `String(value)` representation. -/
inductive JsValue where
  | vstr (s : String)
  | vint (n : Int)
  | vdouble (r : String)
  | vbool (b : Bool)
  | vother (r : String)
deriving DecidableEq, Repr

/-- A typed OTLP attribute value, the codomain of `encodeValue`. -/
inductive AttrValue where
  | stringValue (s : String)
  | intValue (n : Int)
  | doubleValue (r : String)
  | boolValue (b : Bool)
deriving DecidableEq, Repr

/-- `encodeValue` from tracer.ts: strings to `stringValue`, integral numbers
to `intValue`, other numbers to `doubleValue`, booleans to `boolValue`, and
everything else coerced to its string representation. -/
def encodeValue : JsValue → AttrValue
  | .vstr s => .stringValue s
  | .vint n => .intValue n
  | .vdouble r => .doubleValue r
  | .vbool b => .boolValue b
  | .vother r => .stringValue r

/-- `SpanData` from types.ts. `events` is always left empty by the core and is
omitted. Timestamps are the decimal strings the source stores. -/
structure SpanData where
  traceId : String
  spanId : String
  parentSpanId : Option String
  name : String
  kind : String
  startTimeUnixNano : String
  endTimeUnixNano : String
  attributes : List (String × AttrValue)
  status : Option (Int × Option String)
deriving DecidableEq, Repr

/-- `TraceContext` from types.ts. -/
structure TraceContext where
  traceId : String
  spanId : String
  customerId : Option String
deriving DecidableEq, Repr

/-- The configuration fields of `AgentBillConfig` the tracer core reads. -/
structure AgentBillConfig where
  apiKey : String
  baseUrl : Option String
  customerId : Option String
  debug : Bool
deriving DecidableEq, Repr

/-! ### JavaScript `Map` semantics on association lists -/

/-- `Map.prototype.get`. -/
def mapGet (m : List (String × α)) (k : String) : Option α :=
  match m.find? (fun p => p.1 = k) with
  | some p => some p.2
  | none => none

/-- `Map.prototype.set`: replaces in place if the key exists, otherwise
appends in insertion order. -/
def mapSet (m : List (String × α)) (k : String) (v : α) : List (String × α) :=
  if m.any (fun p => p.1 = k) then
    m.map (fun p => if p.1 = k then (k, v) else p)
  else
    m ++ [(k, v)]

/-- `Map.prototype.delete`. -/
def mapDelete (m : List (String × α)) (k : String) : List (String × α) :=
  m.filter (fun p => p.1 ≠ k)

/-! ### Tracer state and operations (tracer.ts) -/

/-- The mutable fields of `AgentBillTracer`: the active-span map, the
pending-export buffer, and the deferred-flush timer.  An armed timer is
modelled by the absolute millisecond instant at which it would fire. -/
structure TracerState where
  activeSpans : List (String × SpanData)
  pendingExports : List SpanData
  exportTimer : Option Nat
deriving DecidableEq, Repr

/-- The tracer's initial state: no active spans, nothing pending, no timer. -/
def TracerState.initial : TracerState :=
  { activeSpans := [], pendingExports := [], exportTimer := none }

/-- `startSpan` from tracer.ts.  `freshTraceId` and `freshSpanId` are the
draws the source takes from the random id generator (the trace-id draw is
used only when no parent context is supplied), and `now` is `Date.now()`. -/
def startSpan (cfg : AgentBillConfig) (name : String)
    (traceContext : Option TraceContext) (freshTraceId freshSpanId : String)
    (now : Nat) (st : TracerState) : TraceContext × TracerState :=
  let traceId := match traceContext with
    | some tc => tc.traceId
    | none => freshTraceId
  let spanId := freshSpanId
  let span : SpanData :=
    { traceId := traceId
      spanId := spanId
      parentSpanId := (traceContext.map (fun tc => tc.spanId))
      name := name
      kind := "client"
      startTimeUnixNano := toString (now * 1000000)
      endTimeUnixNano := ""
      attributes := []
      status := none }
  (⟨traceId, spanId,
      match traceContext with
      | some tc => match tc.customerId with
        | some c => some c
        | none => cfg.customerId
      | none => cfg.customerId⟩,
   { st with activeSpans := mapSet st.activeSpans spanId span })

/-- `setSpanAttribute` from tracer.ts: append an encoded attribute when the
span is active, otherwise leave the state untouched. -/
def setSpanAttribute (st : TracerState) (spanId key : String)
    (value : JsValue) : TracerState :=
  match mapGet st.activeSpans spanId with
  | some span =>
      let updated := { span with attributes := span.attributes ++ [(key, encodeValue value)] }
      { st with activeSpans := mapSet st.activeSpans spanId updated }
  | none => st

/-- `setSpanStatus` from tracer.ts: overwrite the status when the span is
active, otherwise leave the state untouched. -/
def setSpanStatus (st : TracerState) (spanId : String) (code : Int)
    (message : Option String) : TracerState :=
  match mapGet st.activeSpans spanId with
  | some span =>
      let updated := { span with status := some (code, message) }
      { st with activeSpans := mapSet st.activeSpans spanId updated }
  | none => st

/-- `exportSpans` from tracer.ts, as a state transformer that also returns
the batch handed to `fetch` (`none` when the pending buffer was empty and the
function returned without sending).  The send outcome affects only logging,
never state: see `exportSpansWith`. -/
def exportSpans (st : TracerState) : TracerState × Option (List SpanData) :=
  if st.pendingExports = [] then (st, none)
  else ({ st with pendingExports := [] }, some st.pendingExports)

/-- `scheduleExport` from tracer.ts: cancel any pending timer, then either
flush immediately (pending count at or above 10) or arm a fresh 1000 ms
timer.  `now` is the instant of the call, so the armed timer would fire at
`now + 1000`. -/
def scheduleExport (now : Nat) (st : TracerState) :
    TracerState × Option (List SpanData) :=
  let st := { st with exportTimer := none }
  if st.pendingExports.length ≥ 10 then
    exportSpans st
  else
    ({ st with exportTimer := some (now + 1000) }, none)

/-- `endSpan` from tracer.ts: unknown ids return immediately; otherwise the
end timestamp is stamped, the span moves from the active map to the pending
buffer, and `scheduleExport` runs. -/
def endSpan (now : Nat) (spanId : String) (st : TracerState) :
    TracerState × Option (List SpanData) :=
  match mapGet st.activeSpans spanId with
  | none => (st, none)
  | some span =>
      let closed := { span with endTimeUnixNano := toString (now * 1000000) }
      scheduleExport now
        { st with activeSpans := mapDelete st.activeSpans spanId
                  pendingExports := st.pendingExports ++ [closed] }

/-- `flush` from tracer.ts: cancel any pending timer and export. -/
def flush (st : TracerState) : TracerState × Option (List SpanData) :=
  exportSpans { st with exportTimer := none }

/-- The deferred-flush timer firing: the timeout handle is spent, then the
`() => this.exportSpans()` callback runs. -/
def fireTimer (st : TracerState) : TracerState × Option (List SpanData) :=
  exportSpans { st with exportTimer := none }

/-- The outcome of the HTTP POST performed by `exportSpans`. -/
inductive SendOutcome where
  | okResponse (resultText : String)
  | httpError (errorText : String)
  | transportError (errorText : String)
deriving DecidableEq, Repr

/-- `exportSpans` with the send outcome made explicit: the resulting state,
the batch sent (if any), and the console lines the error paths emit.  The
outcome drives logging only; the state transition is exactly `exportSpans`. -/
def exportSpansWith (st : TracerState) (outcome : SendOutcome) :
    TracerState × Option (List SpanData) × List String :=
  match exportSpans st with
  | (st1, none) => (st1, none, [])
  | (st1, some batch) =>
      match outcome with
      | .okResponse _ => (st1, some batch, [])
      | .httpError e => (st1, some batch, ["[AgentBill] Export failed: " ++ e])
      | .transportError e => (st1, some batch, ["[AgentBill] Export error: " ++ e])

/-! ### JavaScript truthiness helpers -/

/-- `x || d` for an optional string: `undefined` and the empty string are
falsy. -/
def jsOrStr (v : Option String) (d : String) : String :=
  match v with
  | some s => if s = "" then d else s
  | none => d

/-- `x || d` for an optional integral number: `undefined` and `0` are
falsy. -/
def jsOrInt (v : Option Int) (d : Int) : Int :=
  match v with
  | some n => if n = 0 then d else n
  | none => d

/-! ### Wrapper layer (wrapper.ts) -/

/-- A value thrown by the underlying call or by response parsing: either an
`Error` instance carrying a message, or any other thrown value identified by
its `String(error)` representation. -/
inductive JsThrown where
  | errorObj (message : String)
  | otherValue (r : String)
deriving DecidableEq, Repr

/-- `error instanceof Error ? error.message : 'Unknown error'`. -/
def thrownStatusMessage : JsThrown → String
  | .errorObj m => m
  | .otherValue _ => "Unknown error"

/-- `error instanceof Error ? error.message : String(error)`. -/
def thrownAttrMessage : JsThrown → String
  | .errorObj m => m
  | .otherValue r => r

/-- The request-parameter fields read by the chat-style instrument
functions (`model`, `temperature`, `max_tokens`). -/
structure ChatParams where
  model : Option String
  temperature : Option JsValue
  maxTokens : Option JsValue
deriving DecidableEq, Repr

/-- OpenAI-shaped usage: `prompt_tokens`, `completion_tokens`,
`total_tokens`, each possibly absent. -/
structure OpenAIUsage where
  promptTokens : Option Int
  completionTokens : Option Int
  totalTokens : Option Int
deriving DecidableEq, Repr

/-- Anthropic-shaped usage: `input_tokens`, `output_tokens`. -/
structure AnthropicUsage where
  inputTokens : Option Int
  outputTokens : Option Int
deriving DecidableEq, Repr

/-- A chat-completion-style response: the instrument functions read only its
`usage` field and otherwise return the value untouched, so the rest of the
response is kept opaque in `rest`. -/
structure ChatResponse where
  usage : Option OpenAIUsage
  rest : String
deriving DecidableEq, Repr

/-- A messages-style (Anthropic) response. -/
structure AnthropicResponse where
  usage : Option AnthropicUsage
  rest : String
deriving DecidableEq, Repr

/-- The structured data obtained from a Bedrock response body after
`JSON.parse`: the instrument function reads only `usage`. -/
structure BedrockBodyJson where
  usage : Option AnthropicUsage
deriving DecidableEq, Repr

/-- A Bedrock response.  `body`, when present, is modelled by the combined
result of `await body.transformToString()` followed by `JSON.parse`: either
the parsed structure or the value thrown when the body text is malformed. -/
structure BedrockResponse where
  body : Option (Except JsThrown BedrockBodyJson)
  rest : String
deriving Repr

/-- The fields of a Bedrock command the instrument function reads:
`command.modelId` and `command.input?.modelId`. -/
structure BedrockCommand where
  modelId : Option String
  inputModelId : Option String
deriving DecidableEq, Repr

/-- The ids and `Date.now()` readings an instrumented call consumes:
`freshTraceId`/`freshSpanId` for `startSpan`, `t0` at entry, `t1` at the
latency computation, `t2` inside `endSpan`. -/
structure CallTiming where
  freshTraceId : String
  freshSpanId : String
  t0 : Nat
  t1 : Nat
  t2 : Nat
deriving DecidableEq, Repr

/-- The error path shared verbatim by every instrument function in
wrapper.ts: status 2 with the failure's message, the `error` and
`error.message` attributes, `endSpan`, then `throw error`. -/
def instrumentFail (tm : CallTiming) (e : JsThrown) (sid : String)
    (st : TracerState) : TracerState × Option (List SpanData) :=
  let st := setSpanStatus st sid 2 (some (thrownStatusMessage e))
  let st := setSpanAttribute st sid "error" (.vbool true)
  let st := setSpanAttribute st sid "error.message" (.vstr (thrownAttrMessage e))
  endSpan tm.t2 sid st

/-- `instrumentOpenAICall` from wrapper.ts.  `outcome` is the result of
`await originalFn(params)`.  Returns the value the wrapper returns (or
re-throws), the tracer state, and any batch flushed by `endSpan`. -/
def instrumentOpenAICall (cfg : AgentBillConfig) (tm : CallTiming)
    (params : ChatParams) (outcome : Except JsThrown ChatResponse)
    (st : TracerState) :
    Except JsThrown ChatResponse × TracerState × Option (List SpanData) :=
  let (tc, st) := startSpan cfg "openai.chat.completions.create" none
      tm.freshTraceId tm.freshSpanId tm.t0 st
  let sid := tc.spanId
  let st := setSpanAttribute st sid "gen_ai.system" (.vstr "openai")
  let st := setSpanAttribute st sid "gen_ai.request.model" (.vstr (jsOrStr params.model "unknown"))
  let st := setSpanAttribute st sid "ai.provider" (.vstr "openai")
  let st := setSpanAttribute st sid "ai.model" (.vstr (jsOrStr params.model "unknown"))
  let st := match params.temperature with
    | some v => setSpanAttribute st sid "gen_ai.request.temperature" v
    | none => st
  let st := match params.maxTokens with
    | some v => setSpanAttribute st sid "gen_ai.request.max_tokens" v
    | none => st
  match outcome with
  | .error e =>
      let (st, batch) := instrumentFail tm e sid st
      (.error e, st, batch)
  | .ok response =>
      let st := setSpanAttribute st sid "gen_ai.response.latency_ms" (.vint (tm.t1 - tm.t0 : Int))
      let st := match response.usage with
        | some u =>
            let st := setSpanAttribute st sid "gen_ai.usage.prompt_tokens" (.vint (jsOrInt u.promptTokens 0))
            let st := setSpanAttribute st sid "gen_ai.usage.completion_tokens" (.vint (jsOrInt u.completionTokens 0))
            let st := setSpanAttribute st sid "gen_ai.usage.total_tokens" (.vint (jsOrInt u.totalTokens 0))
            let st := setSpanAttribute st sid "ai.prompt_tokens" (.vint (jsOrInt u.promptTokens 0))
            let st := setSpanAttribute st sid "ai.completion_tokens" (.vint (jsOrInt u.completionTokens 0))
            setSpanAttribute st sid "ai.total_tokens" (.vint (jsOrInt u.totalTokens 0))
        | none => st
      let st := setSpanStatus st sid 0 none
      let (st, batch) := endSpan tm.t2 sid st
      (.ok response, st, batch)

/-- `instrumentAnthropicCall` from wrapper.ts. -/
def instrumentAnthropicCall (cfg : AgentBillConfig) (tm : CallTiming)
    (params : ChatParams) (outcome : Except JsThrown AnthropicResponse)
    (st : TracerState) :
    Except JsThrown AnthropicResponse × TracerState × Option (List SpanData) :=
  let (tc, st) := startSpan cfg "anthropic.messages.create" none
      tm.freshTraceId tm.freshSpanId tm.t0 st
  let sid := tc.spanId
  let st := setSpanAttribute st sid "gen_ai.system" (.vstr "anthropic")
  let st := setSpanAttribute st sid "gen_ai.request.model" (.vstr (jsOrStr params.model "unknown"))
  let st := setSpanAttribute st sid "ai.provider" (.vstr "anthropic")
  let st := setSpanAttribute st sid "ai.model" (.vstr (jsOrStr params.model "unknown"))
  let st := match params.temperature with
    | some v => setSpanAttribute st sid "gen_ai.request.temperature" v
    | none => st
  let st := match params.maxTokens with
    | some v => setSpanAttribute st sid "gen_ai.request.max_tokens" v
    | none => st
  match outcome with
  | .error e =>
      let (st, batch) := instrumentFail tm e sid st
      (.error e, st, batch)
  | .ok response =>
      let st := setSpanAttribute st sid "gen_ai.response.latency_ms" (.vint (tm.t1 - tm.t0 : Int))
      let st := match response.usage with
        | some u =>
            let st := setSpanAttribute st sid "gen_ai.usage.prompt_tokens" (.vint (jsOrInt u.inputTokens 0))
            let st := setSpanAttribute st sid "gen_ai.usage.completion_tokens" (.vint (jsOrInt u.outputTokens 0))
            let st := setSpanAttribute st sid "gen_ai.usage.total_tokens" (.vint (jsOrInt u.inputTokens 0 + jsOrInt u.outputTokens 0))
            let st := setSpanAttribute st sid "ai.prompt_tokens" (.vint (jsOrInt u.inputTokens 0))
            let st := setSpanAttribute st sid "ai.completion_tokens" (.vint (jsOrInt u.outputTokens 0))
            setSpanAttribute st sid "ai.total_tokens" (.vint (jsOrInt u.inputTokens 0 + jsOrInt u.outputTokens 0))
        | none => st
      let st := setSpanStatus st sid 0 none
      let (st, batch) := endSpan tm.t2 sid st
      (.ok response, st, batch)

/-- `instrumentBedrockCall` from wrapper.ts.  The response-body decode and
`JSON.parse` happen inside the same `try` as the provider call, so a
malformed body takes the shared error path and the parse failure is
re-thrown to the caller. -/
def instrumentBedrockCall (cfg : AgentBillConfig) (tm : CallTiming)
    (command : BedrockCommand) (outcome : Except JsThrown BedrockResponse)
    (st : TracerState) :
    Except JsThrown BedrockResponse × TracerState × Option (List SpanData) :=
  let (tc, st) := startSpan cfg "bedrock.invokeModel" none
      tm.freshTraceId tm.freshSpanId tm.t0 st
  let sid := tc.spanId
  let modelId := jsOrStr command.modelId (jsOrStr command.inputModelId "unknown")
  let st := setSpanAttribute st sid "gen_ai.system" (.vstr "bedrock")
  let st := setSpanAttribute st sid "gen_ai.request.model" (.vstr modelId)
  let st := setSpanAttribute st sid "ai.provider" (.vstr "bedrock")
  let st := setSpanAttribute st sid "ai.model" (.vstr modelId)
  match outcome with
  | .error e =>
      let (st, batch) := instrumentFail tm e sid st
      (.error e, st, batch)
  | .ok response =>
      let st := setSpanAttribute st sid "gen_ai.response.latency_ms" (.vint (tm.t1 - tm.t0 : Int))
      match response.body with
      | some (.error parseError) =>
          let (st, batch) := instrumentFail tm parseError sid st
          (.error parseError, st, batch)
      | some (.ok bodyJson) =>
          let st := match bodyJson.usage with
            | some u =>
                let st := setSpanAttribute st sid "gen_ai.usage.prompt_tokens" (.vint (jsOrInt u.inputTokens 0))
                let st := setSpanAttribute st sid "gen_ai.usage.completion_tokens" (.vint (jsOrInt u.outputTokens 0))
                let st := setSpanAttribute st sid "gen_ai.usage.total_tokens" (.vint (jsOrInt u.inputTokens 0 + jsOrInt u.outputTokens 0))
                let st := setSpanAttribute st sid "ai.prompt_tokens" (.vint (jsOrInt u.inputTokens 0))
                let st := setSpanAttribute st sid "ai.completion_tokens" (.vint (jsOrInt u.outputTokens 0))
                setSpanAttribute st sid "ai.total_tokens" (.vint (jsOrInt u.inputTokens 0 + jsOrInt u.outputTokens 0))
            | none => st
          let st := setSpanStatus st sid 0 none
          let (st, batch) := endSpan tm.t2 sid st
          (.ok response, st, batch)
      | none =>
          let st := setSpanStatus st sid 0 none
          let (st, batch) := endSpan tm.t2 sid st
          (.ok response, st, batch)

/-- `instrumentMistralCall` from wrapper.ts.  The span name is the fixed
string `"mistral.chat.complete"` regardless of which intercepted path
(`chat.complete` or `chat.stream`) routed here. -/
def instrumentMistralCall (cfg : AgentBillConfig) (tm : CallTiming)
    (params : ChatParams) (outcome : Except JsThrown ChatResponse)
    (st : TracerState) :
    Except JsThrown ChatResponse × TracerState × Option (List SpanData) :=
  let (tc, st) := startSpan cfg "mistral.chat.complete" none
      tm.freshTraceId tm.freshSpanId tm.t0 st
  let sid := tc.spanId
  let st := setSpanAttribute st sid "gen_ai.system" (.vstr "mistral")
  let st := setSpanAttribute st sid "gen_ai.request.model" (.vstr (jsOrStr params.model "unknown"))
  let st := setSpanAttribute st sid "ai.provider" (.vstr "mistral")
  let st := setSpanAttribute st sid "ai.model" (.vstr (jsOrStr params.model "unknown"))
  let st := match params.temperature with
    | some v => setSpanAttribute st sid "gen_ai.request.temperature" v
    | none => st
  let st := match params.maxTokens with
    | some v => setSpanAttribute st sid "gen_ai.request.max_tokens" v
    | none => st
  match outcome with
  | .error e =>
      let (st, batch) := instrumentFail tm e sid st
      (.error e, st, batch)
  | .ok response =>
      let st := setSpanAttribute st sid "gen_ai.response.latency_ms" (.vint (tm.t1 - tm.t0 : Int))
      let st := match response.usage with
        | some u =>
            let st := setSpanAttribute st sid "gen_ai.usage.prompt_tokens" (.vint (jsOrInt u.promptTokens 0))
            let st := setSpanAttribute st sid "gen_ai.usage.completion_tokens" (.vint (jsOrInt u.completionTokens 0))
            let st := setSpanAttribute st sid "gen_ai.usage.total_tokens" (.vint (jsOrInt u.totalTokens 0))
            let st := setSpanAttribute st sid "ai.prompt_tokens" (.vint (jsOrInt u.promptTokens 0))
            let st := setSpanAttribute st sid "ai.completion_tokens" (.vint (jsOrInt u.completionTokens 0))
            setSpanAttribute st sid "ai.total_tokens" (.vint (jsOrInt u.totalTokens 0))
        | none => st
      let st := setSpanStatus st sid 0 none
      let (st, batch) := endSpan tm.t2 sid st
      (.ok response, st, batch)

/-- `instrumentAzureOpenAICall` from wrapper.ts: identical in shape to the
OpenAI chat instrumentation except for the span name and provider strings. -/
def instrumentAzureOpenAICall (cfg : AgentBillConfig) (tm : CallTiming)
    (params : ChatParams) (outcome : Except JsThrown ChatResponse)
    (st : TracerState) :
    Except JsThrown ChatResponse × TracerState × Option (List SpanData) :=
  let (tc, st) := startSpan cfg "azure_openai.chat.completions.create" none
      tm.freshTraceId tm.freshSpanId tm.t0 st
  let sid := tc.spanId
  let st := setSpanAttribute st sid "gen_ai.system" (.vstr "azure_openai")
  let st := setSpanAttribute st sid "gen_ai.request.model" (.vstr (jsOrStr params.model "unknown"))
  let st := setSpanAttribute st sid "ai.provider" (.vstr "azure_openai")
  let st := setSpanAttribute st sid "ai.model" (.vstr (jsOrStr params.model "unknown"))
  let st := match params.temperature with
    | some v => setSpanAttribute st sid "gen_ai.request.temperature" v
    | none => st
  let st := match params.maxTokens with
    | some v => setSpanAttribute st sid "gen_ai.request.max_tokens" v
    | none => st
  match outcome with
  | .error e =>
      let (st, batch) := instrumentFail tm e sid st
      (.error e, st, batch)
  | .ok response =>
      let st := setSpanAttribute st sid "gen_ai.response.latency_ms" (.vint (tm.t1 - tm.t0 : Int))
      let st := match response.usage with
        | some u =>
            let st := setSpanAttribute st sid "gen_ai.usage.prompt_tokens" (.vint (jsOrInt u.promptTokens 0))
            let st := setSpanAttribute st sid "gen_ai.usage.completion_tokens" (.vint (jsOrInt u.completionTokens 0))
            let st := setSpanAttribute st sid "gen_ai.usage.total_tokens" (.vint (jsOrInt u.totalTokens 0))
            let st := setSpanAttribute st sid "ai.prompt_tokens" (.vint (jsOrInt u.promptTokens 0))
            let st := setSpanAttribute st sid "ai.completion_tokens" (.vint (jsOrInt u.completionTokens 0))
            setSpanAttribute st sid "ai.total_tokens" (.vint (jsOrInt u.totalTokens 0))
        | none => st
      let st := setSpanStatus st sid 0 none
      let (st, batch) := endSpan tm.t2 sid st
      (.ok response, st, batch)

/-! ### The adapter dispatch table

The wrapper functions (`wrapOpenAI`, `wrapAnthropic`, `wrapBedrock`,
`wrapAzureOpenAI`, `wrapMistral`) install instrumented replacements at a
fixed, enumerated set of call paths.  `interceptedCall` records, for each
provider identifier and property path, which instrument function the proxy
chain routes the call to; `spanNameOf` records the span-name string literal
that instrument function passes to `startSpan`. -/

/-- One instrument function of wrapper.ts. -/
inductive InstrumentedCall where
  | openaiChat
  | openaiEmbeddings
  | openaiImages
  | openaiAudioTranscription
  | openaiAudioSpeech
  | openaiModerations
  | anthropicMessages
  | bedrockInvoke
  | azureChat
  | mistralChat
deriving DecidableEq, Repr

/-- The span name each instrument function passes to `startSpan`. -/
def spanNameOf : InstrumentedCall → String
  | .openaiChat => "openai.chat.completions.create"
  | .openaiEmbeddings => "openai.embeddings.create"
  | .openaiImages => "openai.images.generate"
  | .openaiAudioTranscription => "openai.audio.transcriptions.create"
  | .openaiAudioSpeech => "openai.audio.speech.create"
  | .openaiModerations => "openai.moderations.create"
  | .anthropicMessages => "anthropic.messages.create"
  | .bedrockInvoke => "bedrock.invokeModel"
  | .azureChat => "azure_openai.chat.completions.create"
  | .mistralChat => "mistral.chat.complete"

/-- The dispatch performed by the nested proxies of wrapper.ts: which
instrument function, if any, handles a call at the given property path on
the given wrapped provider client. -/
def interceptedCall : String → List String → Option InstrumentedCall
  | "openai", ["chat", "completions", "create"] => some .openaiChat
  | "openai", ["embeddings", "create"] => some .openaiEmbeddings
  | "openai", ["images", "generate"] => some .openaiImages
  | "openai", ["audio", "transcriptions", "create"] => some .openaiAudioTranscription
  | "openai", ["audio", "speech", "create"] => some .openaiAudioSpeech
  | "openai", ["moderations", "create"] => some .openaiModerations
  | "anthropic", ["messages", "create"] => some .anthropicMessages
  | "bedrock", ["invokeModel"] => some .bedrockInvoke
  | "bedrock", ["send"] => some .bedrockInvoke
  | "azure_openai", ["chat", "completions", "create"] => some .azureChat
  | "mistral", ["chat", "complete"] => some .mistralChat
  | "mistral", ["chat", "stream"] => some .mistralChat
  | _, _ => none

/-! ### Batch Exporter append and the debounce run (tracer.ts) -/

/-- The exporter-append step performed by `endSpan` once a span is closed:
`this.pendingExports.push(span)` followed by `this.scheduleExport()`. -/
def appendSpan (now : Nat) (s : SpanData) (st : TracerState) :
    TracerState × Option (List SpanData) :=
  scheduleExport now { st with pendingExports := st.pendingExports ++ [s] }

/-- `chainOk d evs`: each append in `evs` happens strictly before the
deferred-flush deadline that is armed when it occurs (`d` is the deadline
armed on entry, if any; each append re-arms the deadline 1000 ms after
itself). -/
def chainOk : Option Nat → List (Nat × SpanData) → Bool
  | _, [] => true
  | d, (t, _) :: rest =>
      (match d with
       | some deadline => decide (t < deadline)
       | none => true) && chainOk (some (t + 1000)) rest

/-- Run a sequence of timed appends against the exporter.  Before each
append, the armed timer fires iff its deadline has been reached by the time
of that append.  Returns the final state and every batch sent during the
run, in order. -/
def runAppends : TracerState → List (Nat × SpanData) → TracerState × List (List SpanData)
  | st, [] => (st, [])
  | st, (t, s) :: rest =>
      let fired :=
        match st.exportTimer with
        | some deadline => if deadline ≤ t then fireTimer st else (st, none)
        | none => (st, none)
      let stepped := appendSpan t s fired.1
      let tail := runAppends stepped.1 rest
      (tail.1, fired.2.toList ++ stepped.2.toList ++ tail.2)

/-! ### Span Registry reachability (tracer.ts) -/

/-- The key set of the active-span map is duplicate-free. -/
def activeKeysNodup (st : TracerState) : Prop :=
  (st.activeSpans.map Prod.fst).Nodup

/-- The registry states reachable from a fresh tracer by any interleaving of
the public tracer operations, with arbitrary names, parent contexts, id
draws, and clock readings. -/
inductive Reachable : TracerState → Prop where
  | init : Reachable TracerState.initial
  | start (cfg : AgentBillConfig) (name : String) (tc : Option TraceContext)
      (ftid fsid : String) (now : Nat) {st : TracerState} :
      Reachable st → Reachable (startSpan cfg name tc ftid fsid now st).2
  | attr (sid k : String) (v : JsValue) {st : TracerState} :
      Reachable st → Reachable (setSpanAttribute st sid k v)
  | status (sid : String) (code : Int) (msg : Option String) {st : TracerState} :
      Reachable st → Reachable (setSpanStatus st sid code msg)
  | endS (now : Nat) (sid : String) {st : TracerState} :
      Reachable st → Reachable (endSpan now sid st).1
  | doFlush {st : TracerState} : Reachable st → Reachable (flush st).1
  | timerFires {st : TracerState} : Reachable st → Reachable (fireTimer st).1

/-- One `startSpan` call of a harness sequence: the span name and the id and
clock draws it consumes. -/
structure StartCall where
  name : String
  freshTraceId : String
  freshSpanId : String
  now : Nat
deriving DecidableEq, Repr

/-- A sequence of parentless `startSpan` calls, as in the spec's
testable-property scenario. -/
def startSpans (cfg : AgentBillConfig) (calls : List StartCall)
    (st : TracerState) : TracerState :=
  calls.foldl (fun st c => (startSpan cfg c.name none c.freshTraceId c.freshSpanId c.now st).2) st

/-! ### Client values and the wrapper proxies (wrapper.ts) -/

/-- A JavaScript value sitting behind a property of a provider client, as
far as the wrapper's `get` traps distinguish them: plain objects and
functions are valid `Proxy` targets, primitives and `undefined` are not. -/
inductive ClientVal where
  | obj (props : List (String × ClientVal))
  | fnVal (tag : String)
  | numVal (n : Int)
  | strVal (s : String)
  | boolVal (b : Bool)
  | nullVal
  | jsUndefined

/-- JavaScript `Object(x) === x`: the values `new Proxy(x, …)` accepts as a
target. -/
def isJsObject : ClientVal → Bool
  | .obj _ => true
  | .fnVal _ => true
  | _ => false

/-- Property read on a raw client object (`target[prop]`, `undefined` when
the property is missing). -/
def clientGet (props : List (String × ClientVal)) (k : String) : ClientVal :=
  match props.find? (fun p => p.1 = k) with
  | some p => p.2
  | none => .jsUndefined

/-- What a `get` trap of a wrapping proxy can produce for a property read:
the original value forwarded unchanged, a fresh instrumenting proxy over the
original value, or the `TypeError` the `Proxy` constructor throws when its
target is not an object. -/
inductive GetOutcome where
  | value (v : ClientVal)
  | proxied (original : ClientVal)
  | typeError

/-- `new Proxy(original, handler)` as the wrapper uses it: a proxy over
`original` when `original` is an object, otherwise a thrown `TypeError`. -/
def mkProxy (original : ClientVal) : GetOutcome :=
  if isJsObject original then .proxied original else .typeError

/-- The top-level `get` trap of `wrapOpenAI`: property reads named `chat`,
`embeddings`, `images`, `audio`, or `moderations` each construct a nested
instrumenting proxy over the underlying value; every other read forwards
the underlying value unchanged. -/
def wrapOpenAIGet (client : List (String × ClientVal)) (prop : String) : GetOutcome :=
  let original := clientGet client prop
  if prop = "chat" then mkProxy original
  else if prop = "embeddings" then mkProxy original
  else if prop = "images" then mkProxy original
  else if prop = "audio" then mkProxy original
  else if prop = "moderations" then mkProxy original
  else .value original

/-- The top-level `get` trap of `wrapAnthropic`: only `messages` is
instrumented. -/
def wrapAnthropicGet (client : List (String × ClientVal)) (prop : String) : GetOutcome :=
  let original := clientGet client prop
  if prop = "messages" then mkProxy original
  else .value original

/-- The property names `wrapOpenAI` instruments. -/
def openaiInstrumentedProps : List String :=
  ["chat", "embeddings", "images", "audio", "moderations"]

/-! ### Concrete sample values used by witnesses and counterexamples -/

/-- A concrete configuration. -/
def sampleConfig : AgentBillConfig :=
  { apiKey := "k", baseUrl := none, customerId := some "cust-1", debug := false }

/-- A concrete closed span. -/
def sampleSpan : SpanData :=
  { traceId := "t0", spanId := "s0", parentSpanId := none, name := "n",
    kind := "client", startTimeUnixNano := "0", endTimeUnixNano := "0",
    attributes := [], status := some (0, none) }

/-- A concrete timing bundle. -/
def sampleTiming : CallTiming :=
  { freshTraceId := "trace-a", freshSpanId := "span-a", t0 := 5, t1 := 12, t2 := 12 }

/-- An instrumented call emitted exactly one new closed span, named `nm`:
the spans handed onward (still pending plus flushed in this step) are the
previously pending ones followed by exactly one new span with that name. -/
def emitsOneSpanNamed (r : TracerState × Option (List SpanData))
    (st : TracerState) (nm : String) : Prop :=
  ∃ sp, r.1.pendingExports ++ (r.2.getD []) = st.pendingExports ++ [sp] ∧ sp.name = nm

/-! ## Lemmas about the JavaScript `Map` model -/

theorem mapGet_cons (q : String × α) (m : List (String × α)) (k : String) :
    mapGet (q :: m) k = if q.1 = k then some q.2 else mapGet m k := by
  by_cases hq : q.1 = k <;> simp [mapGet, List.find?_cons, hq]

theorem mapSet_cons (q : String × α) (m : List (String × α)) (k : String) (v : α) :
    mapSet (q :: m) k v =
      if q.1 = k then (k, v) :: m.map (fun p => if p.1 = k then (k, v) else p)
      else q :: mapSet m k v := by
  by_cases hq : q.1 = k
  · simp [mapSet, List.any_cons, hq]
  · by_cases hm : m.any (fun p => p.1 = k) <;>
      simp [mapSet, List.any_cons, hq, hm]

theorem mapGet_mapSet_self (m : List (String × α)) (k : String) (v : α) :
    mapGet (mapSet m k v) k = some v := by
  induction m with
  | nil => simp [mapSet, mapGet_cons]
  | cons q m ih =>
      rw [mapSet_cons]
      by_cases hq : q.1 = k
      · simp [hq, mapGet_cons]
      · simp [hq, mapGet_cons, ih]

theorem mapGet_nil (k : String) : mapGet ([] : List (String × α)) k = none := rfl

theorem mapDelete_cons (q : String × α) (m : List (String × α)) (k : String) :
    mapDelete (q :: m) k = if q.1 = k then mapDelete m k else q :: mapDelete m k := by
  by_cases hq : q.1 = k <;> simp [mapDelete, List.filter_cons, hq]

theorem mapSet_eq_of_any {m : List (String × α)} {k : String}
    (h : m.any (fun p => p.1 = k) = true) (v : α) :
    mapSet m k v = m.map (fun p => if p.1 = k then (k, v) else p) := by
  simp [mapSet, h]

theorem mapSet_eq_of_not_any {m : List (String × α)} {k : String}
    (h : m.any (fun p => p.1 = k) = false) (v : α) :
    mapSet m k v = m ++ [(k, v)] := by
  simp [mapSet, h]

theorem keys_ne_of_not_any {m : List (String × α)} {k : String}
    (h : m.any (fun p => p.1 = k) = false) : ∀ p ∈ m, ¬ (p.1 = k) := by
  intro p hp hpk
  have h2 : m.any (fun p => p.1 = k) = true := by
    refine List.any_eq_true.mpr ⟨p, hp, ?_⟩
    simpa using hpk
  rw [h2] at h
  exact Bool.noConfusion h

theorem map_replace_map_replace (m : List (String × α)) (k : String) (v w : α) :
    (m.map (fun p => if p.1 = k then (k, v) else p)).map
        (fun p => if p.1 = k then (k, w) else p)
      = m.map (fun p => if p.1 = k then (k, w) else p) := by
  rw [List.map_map]
  refine List.map_congr_left (fun p _ => ?_)
  by_cases hp : p.1 = k <;> simp [hp, Function.comp]

theorem mapGet_map_replace (m : List (String × α)) {k q : String} (v : α)
    (h : q ≠ k) :
    mapGet (m.map (fun p => if p.1 = k then (k, v) else p)) q = mapGet m q := by
  induction m with
  | nil => rfl
  | cons r m ih =>
      rw [List.map_cons, mapGet_cons, mapGet_cons]
      by_cases hr : r.1 = k
      · have hkq : k ≠ q := fun hh => h hh.symm
        simp [hr, hkq, ih]
      · by_cases hrq : r.1 = q <;> simp [hr, hrq, h, ih]

theorem mapDelete_map_replace (m : List (String × α)) (k : String) (v : α) :
    mapDelete (m.map (fun p => if p.1 = k then (k, v) else p)) k = mapDelete m k := by
  induction m with
  | nil => rfl
  | cons r m ih =>
      rw [List.map_cons, mapDelete_cons, mapDelete_cons]
      by_cases hr : r.1 = k <;> simp [hr, ih]

theorem any_key_map_replace (m : List (String × α)) (k : String) (v : α)
    (h : m.any (fun p => p.1 = k) = true) :
    (m.map (fun p => if p.1 = k then (k, v) else p)).any (fun p => p.1 = k) = true := by
  rcases List.any_eq_true.mp h with ⟨p, hp, hpk⟩
  refine List.any_eq_true.mpr ⟨(k, v), List.mem_map.mpr ⟨p, hp, ?_⟩, by simp⟩
  simp [show p.1 = k by simpa using hpk]

theorem mapSet_mapSet_self (m : List (String × α)) (k : String) (v w : α) :
    mapSet (mapSet m k v) k w = mapSet m k w := by
  by_cases h : m.any (fun p => p.1 = k) = true
  · rw [mapSet_eq_of_any h, mapSet_eq_of_any (any_key_map_replace m k v h),
      map_replace_map_replace, mapSet_eq_of_any h]
  · have hf : m.any (fun p => p.1 = k) = false := Bool.eq_false_iff.mpr h
    rw [mapSet_eq_of_not_any hf]
    have h2 : (m ++ [(k, v)]).any (fun p => p.1 = k) = true :=
      List.any_eq_true.mpr ⟨(k, v), by simp, by simp⟩
    rw [mapSet_eq_of_any h2, mapSet_eq_of_not_any hf, List.map_append]
    have hm : m.map (fun p => if p.1 = k then (k, w) else p) = m := by
      refine (List.map_congr_left (fun p hp => ?_)).trans (List.map_id m)
      simp [keys_ne_of_not_any hf p hp]
    simp [hm]

theorem mapDelete_mapSet_self (m : List (String × α)) (k : String) (v : α) :
    mapDelete (mapSet m k v) k = mapDelete m k := by
  by_cases h : m.any (fun p => p.1 = k) = true
  · rw [mapSet_eq_of_any h, mapDelete_map_replace]
  · have hf : m.any (fun p => p.1 = k) = false := Bool.eq_false_iff.mpr h
    rw [mapSet_eq_of_not_any hf]
    simp [mapDelete, List.filter_append]

theorem mapGet_eq_none_iff {m : List (String × α)} {k : String} :
    mapGet m k = none ↔ ∀ p ∈ m, p.1 ≠ k := by
  induction m with
  | nil => simp [mapGet_nil]
  | cons q m ih =>
      rw [mapGet_cons]
      by_cases hq : q.1 = k <;> simp [hq, ih]

theorem mapGet_mapDelete_self (m : List (String × α)) (k : String) :
    mapGet (mapDelete m k) k = none := by
  induction m with
  | nil => rfl
  | cons q m ih =>
      rw [mapDelete_cons]
      by_cases hq : q.1 = k
      · simp [hq, ih]
      · rw [if_neg hq, mapGet_cons, if_neg hq, ih]

theorem mapDelete_of_not_mem {m : List (String × α)} {k : String}
    (h : mapGet m k = none) : mapDelete m k = m := by
  induction m with
  | nil => rfl
  | cons q m ih =>
      rw [mapGet_cons] at h
      by_cases hq : q.1 = k
      · simp [hq] at h
      · rw [mapDelete_cons, if_neg hq, ih (by simpa [hq] using h)]

theorem mapSet_of_not_mem {m : List (String × α)} {k : String}
    (h : mapGet m k = none) (v : α) : mapSet m k v = m ++ [(k, v)] := by
  have hall : ∀ p ∈ m, p.1 ≠ k := mapGet_eq_none_iff.mp h
  have hany : m.any (fun p => p.1 = k) = false := by
    refine List.any_eq_false.mpr (fun p hp => ?_)
    simpa using hall p hp
  exact mapSet_eq_of_not_any hany v

theorem mapGet_append_of_none {m : List (String × α)} {k : String}
    (h : mapGet m k = none) (l : List (String × α)) :
    mapGet (m ++ l) k = mapGet l k := by
  induction m with
  | nil => rfl
  | cons q m ih =>
      rw [mapGet_cons] at h
      by_cases hq : q.1 = k
      · simp [hq] at h
      · rw [List.cons_append, mapGet_cons, if_neg hq, ih (by simpa [hq] using h)]

theorem mapGet_append_single_ne (m : List (String × α)) {k q : String} (v : α)
    (h : q ≠ k) : mapGet (m ++ [(k, v)]) q = mapGet m q := by
  induction m with
  | nil =>
      have : k ≠ q := fun hh => h hh.symm
      simp [mapGet_cons, mapGet_nil, this]
  | cons r m ih =>
      rw [List.cons_append, mapGet_cons, mapGet_cons]
      by_cases hr : r.1 = q <;> simp [hr, ih]

theorem mapGet_mapSet_ne (m : List (String × α)) {k q : String} (v : α)
    (h : q ≠ k) : mapGet (mapSet m k v) q = mapGet m q := by
  by_cases hany : m.any (fun p => p.1 = k) = true
  · rw [mapSet_eq_of_any hany]
    exact mapGet_map_replace m v h
  · have hf : m.any (fun p => p.1 = k) = false := Bool.eq_false_iff.mpr hany
    rw [mapSet_eq_of_not_any hf]
    exact mapGet_append_single_ne m v h

theorem length_mapSet_of_not_mem {m : List (String × α)} {k : String}
    (h : mapGet m k = none) (v : α) :
    (mapSet m k v).length = m.length + 1 := by
  rw [mapSet_of_not_mem h v]
  simp

/-! ## Composite lemmas about the tracer operations -/

theorem startSpan_snd (cfg : AgentBillConfig) (name : String)
    (ftid fsid : String) (now : Nat) (st : TracerState) :
    (startSpan cfg name none ftid fsid now st).2 =
      { st with activeSpans := mapSet st.activeSpans fsid (SpanData.mk ftid fsid none name "client" (toString (now * 1000000)) "" [] none) } := rfl

theorem setSpanAttribute_mapSet (a : List (String × SpanData))
    (p : List SpanData) (tmr : Option Nat) (sid k : String) (v : JsValue)
    (sp : SpanData) :
    setSpanAttribute ⟨mapSet a sid sp, p, tmr⟩ sid k v =
      ⟨mapSet a sid { sp with attributes := sp.attributes ++ [(k, encodeValue v)] }, p, tmr⟩ := by
  simp [setSpanAttribute, mapGet_mapSet_self, mapSet_mapSet_self]

theorem setSpanStatus_mapSet (a : List (String × SpanData))
    (p : List SpanData) (tmr : Option Nat) (sid : String) (code : Int)
    (msg : Option String) (sp : SpanData) :
    setSpanStatus ⟨mapSet a sid sp, p, tmr⟩ sid code msg =
      ⟨mapSet a sid { sp with status := some (code, msg) }, p, tmr⟩ := by
  simp [setSpanStatus, mapGet_mapSet_self, mapSet_mapSet_self]

theorem endSpan_mapSet (now : Nat) (a : List (String × SpanData))
    (p : List SpanData) (tmr : Option Nat) (sid : String) (sp : SpanData) :
    endSpan now sid ⟨mapSet a sid sp, p, tmr⟩ =
      scheduleExport now
        ⟨mapDelete a sid,
         p ++ [{ sp with endTimeUnixNano := toString (now * 1000000) }], tmr⟩ := by
  simp [endSpan, mapGet_mapSet_self, mapDelete_mapSet_self]

theorem scheduleExport_activeSpans (now : Nat) (st : TracerState) :
    (scheduleExport now st).1.activeSpans = st.activeSpans := by
  by_cases h : st.pendingExports.length ≥ 10 <;>
    simp [scheduleExport, exportSpans, h] <;>
    split <;> simp

theorem scheduleExport_emitted (now : Nat) (st : TracerState) :
    (scheduleExport now st).1.pendingExports ++ ((scheduleExport now st).2.getD []) =
      st.pendingExports := by
  by_cases h : st.pendingExports.length ≥ 10 <;>
    simp [scheduleExport, exportSpans, h] <;>
    split <;> simp_all

theorem scheduleExport_flush (now : Nat) (st : TracerState)
    (h : st.pendingExports.length ≥ 10) :
    scheduleExport now st =
      ({ st with pendingExports := [], exportTimer := none },
       some st.pendingExports) := by
  have hne : ¬ (st.pendingExports = []) := by
    intro hnil
    rw [hnil] at h
    simp at h
  simp [scheduleExport, exportSpans, h, hne]

theorem scheduleExport_arm (now : Nat) (st : TracerState)
    (h : ¬ st.pendingExports.length ≥ 10) :
    scheduleExport now st =
      ({ st with exportTimer := some (now + 1000) }, none) := by
  simp [scheduleExport, h]

theorem exportSpans_activeSpans (st : TracerState) :
    (exportSpans st).1.activeSpans = st.activeSpans := by
  unfold exportSpans
  split <;> rfl

theorem emitsOneSpanNamed_endSpan (now : Nat) (sid : String)
    (a : List (String × SpanData)) (p : List SpanData) (tmr : Option Nat)
    (sp : SpanData) (st : TracerState) (hp : st.pendingExports = p)
    {nm : String} (hnm : sp.name = nm) :
    emitsOneSpanNamed (endSpan now sid ⟨mapSet a sid sp, p, tmr⟩) st nm := by
  rw [endSpan_mapSet]
  refine ⟨{ sp with endTimeUnixNano := toString (now * 1000000) }, ?_, by simpa using hnm⟩
  rw [scheduleExport_emitted]
  simp [hp]

/-! ## Span Registry lemmas -/

theorem startSpans_nil (cfg : AgentBillConfig) (st : TracerState) :
    startSpans cfg [] st = st := rfl

theorem startSpans_cons (cfg : AgentBillConfig) (c : StartCall)
    (calls : List StartCall) (st : TracerState) :
    startSpans cfg (c :: calls) st =
      startSpans cfg calls (startSpan cfg c.name none c.freshTraceId c.freshSpanId c.now st).2 := rfl

theorem startSpans_length (cfg : AgentBillConfig) (calls : List StartCall) :
    ∀ st : TracerState,
      (∀ c ∈ calls, mapGet st.activeSpans c.freshSpanId = none) →
      (calls.map StartCall.freshSpanId).Nodup →
      (startSpans cfg calls st).activeSpans.length = st.activeSpans.length + calls.length := by
  induction calls with
  | nil => intro st _ _; simp [startSpans_nil]
  | cons c calls ih =>
      intro st hfresh hnodup
      rw [startSpans_cons, startSpan_snd]
      have hc : mapGet st.activeSpans c.freshSpanId = none := hfresh c (by simp)
      have hhead : c.freshSpanId ∉ calls.map StartCall.freshSpanId :=
        (List.nodup_cons.mp (by simpa using hnodup)).1
      have hfresh2 : ∀ c2 ∈ calls,
          mapGet ({ st with activeSpans := mapSet st.activeSpans c.freshSpanId (SpanData.mk c.freshTraceId c.freshSpanId none c.name "client" (toString (c.now * 1000000)) "" [] none) } : TracerState).activeSpans c2.freshSpanId = none := by
        simp only []
        intro c2 h2
        have hne : c2.freshSpanId ≠ c.freshSpanId := by
          intro heq
          exact hhead (heq ▸ List.mem_map.mpr ⟨c2, h2, rfl⟩)
        rw [mapGet_mapSet_ne _ _ hne]
        exact hfresh c2 (by simp [h2])
      have hnodup2 : (calls.map StartCall.freshSpanId).Nodup :=
        (List.nodup_cons.mp (by simpa using hnodup)).2
      have := ih _ hfresh2 hnodup2
      simp only [this]
      simp [length_mapSet_of_not_mem hc]
      omega

theorem keys_map_replace (m : List (String × α)) (k : String) (v : α) :
    (m.map (fun p => if p.1 = k then (k, v) else p)).map Prod.fst =
      m.map Prod.fst := by
  rw [List.map_map]
  refine List.map_congr_left (fun p _ => ?_)
  by_cases hp : p.1 = k <;> simp [hp, Function.comp]

theorem nodup_keys_mapSet (m : List (String × α)) (k : String) (v : α)
    (h : (m.map Prod.fst).Nodup) : ((mapSet m k v).map Prod.fst).Nodup := by
  by_cases hany : m.any (fun p => p.1 = k) = true
  · rw [mapSet_eq_of_any hany, keys_map_replace]
    exact h
  · have hf : m.any (fun p => p.1 = k) = false := Bool.eq_false_iff.mpr hany
    rw [mapSet_eq_of_not_any hf, List.map_append]
    have hnotmem : k ∉ m.map Prod.fst := by
      intro hk
      rcases List.mem_map.mp hk with ⟨p, hp, hpk⟩
      exact keys_ne_of_not_any hf p hp hpk
    simp [List.nodup_append, h, hnotmem]

theorem nodup_keys_mapDelete (m : List (String × α)) (k : String)
    (h : (m.map Prod.fst).Nodup) : ((mapDelete m k).map Prod.fst).Nodup := by
  have hsub : (mapDelete m k).Sublist m := List.filter_sublist m
  exact h.sublist (hsub.map Prod.fst)

theorem flush_activeSpans (st : TracerState) :
    (flush st).1.activeSpans = st.activeSpans := by
  unfold flush
  rw [exportSpans_activeSpans]

theorem fireTimer_activeSpans (st : TracerState) :
    (fireTimer st).1.activeSpans = st.activeSpans := by
  unfold fireTimer
  rw [exportSpans_activeSpans]

theorem endSpan_activeSpans_cases (now : Nat) (sid : String) (st : TracerState) :
    (endSpan now sid st).1.activeSpans = st.activeSpans ∨
    (endSpan now sid st).1.activeSpans = mapDelete st.activeSpans sid := by
  unfold endSpan
  cases h : mapGet st.activeSpans sid with
  | none => exact Or.inl rfl
  | some sp =>
      right
      rw [scheduleExport_activeSpans]

/-- C8: at every instant, in every registry state reachable by any sequence
of tracer operations and any outcome of the random identifier source, the
span ids of the currently active spans are pairwise distinct (the active
mapping is keyed by span id, and every operation preserves key
uniqueness). -/
theorem c8_active_span_ids_distinct (st : TracerState) (h : Reachable st) :
    activeKeysNodup st := by
  induction h with
  | init => simp [activeKeysNodup, TracerState.initial]
  | start cfg name tc ftid fsid now h ih =>
      unfold startSpan activeKeysNodup
      exact nodup_keys_mapSet _ _ _ ih
  | attr sid k v h ih =>
      unfold setSpanAttribute
      cases hm : mapGet _ sid with
      | none => exact ih
      | some sp => exact nodup_keys_mapSet _ _ _ ih
  | status sid code msg h ih =>
      unfold setSpanStatus
      cases hm : mapGet _ sid with
      | none => exact ih
      | some sp => exact nodup_keys_mapSet _ _ _ ih
  | endS now sid h ih =>
      rcases endSpan_activeSpans_cases now sid _ with heq | heq <;>
        unfold activeKeysNodup <;> rw [heq]
      · exact ih
      · exact nodup_keys_mapDelete _ _ ih
  | doFlush h ih =>
      unfold activeKeysNodup
      rw [flush_activeSpans]
      exact ih
  | timerFires h ih =>
      unfold activeKeysNodup
      rw [fireTimer_activeSpans]
      exact ih

/-- Witness for C8 at a concrete reachable state: two spans started with
distinct ids, one of them ended. -/
theorem c8_active_span_ids_distinct_witness :
    activeKeysNodup (endSpan 3 "s1"
      (startSpan sampleConfig "b" none "t2" "s2" 1
        (startSpan sampleConfig "a" none "t1" "s1" 0 TracerState.initial).2).2).1 :=
  c8_active_span_ids_distinct _
    (Reachable.endS 3 "s1"
      (Reachable.start sampleConfig "b" none "t2" "s2" 1
        (Reachable.start sampleConfig "a" none "t1" "s1" 0 Reachable.init)))

theorem endSpan_not_active (now : Nat) (sid : String) (st : TracerState) :
    mapGet (endSpan now sid st).1.activeSpans sid = none := by
  unfold endSpan
  cases h : mapGet st.activeSpans sid with
  | none => exact h
  | some sp =>
      simp only []
      rw [scheduleExport_activeSpans]
      exact mapGet_mapDelete_self _ _

theorem endSpan_of_active {st : TracerState} {sid : String} {sp : SpanData}
    (h : mapGet st.activeSpans sid = some sp) (now : Nat) :
    endSpan now sid st =
      scheduleExport now
        ⟨mapDelete st.activeSpans sid,
         st.pendingExports ++ [{ sp with endTimeUnixNano := toString (now * 1000000) }],
         st.exportTimer⟩ := by
  unfold endSpan
  rw [h]

theorem endSpan_of_inactive {st : TracerState} {sid : String}
    (h : mapGet st.activeSpans sid = none) (now : Nat) :
    endSpan now sid st = (st, none) := by
  unfold endSpan
  rw [h]

/-- C5: starting N spans with pairwise-distinct generated ids yields an
active-span count of N; ending an active span removes its id from the
active set and hands exactly one closed copy of it to the exporter; ending
an unknown id — in particular ending the same id a second time — is a
complete no-op on the tracer state and sends nothing. -/
theorem c5_start_end_lifecycle :
    (∀ (cfg : AgentBillConfig) (calls : List StartCall),
      (calls.map StartCall.freshSpanId).Nodup →
      (startSpans cfg calls TracerState.initial).activeSpans.length = calls.length) ∧
    (∀ (now : Nat) (sid : String) (st : TracerState) (sp : SpanData),
      mapGet st.activeSpans sid = some sp →
      mapGet (endSpan now sid st).1.activeSpans sid = none ∧
      (endSpan now sid st).1.pendingExports ++ ((endSpan now sid st).2.getD []) =
        st.pendingExports ++ [{ sp with endTimeUnixNano := toString (now * 1000000) }]) ∧
    (∀ (now : Nat) (sid : String) (st : TracerState),
      mapGet st.activeSpans sid = none → endSpan now sid st = (st, none)) ∧
    (∀ (now now2 : Nat) (sid : String) (st : TracerState),
      endSpan now2 sid (endSpan now sid st).1 = ((endSpan now sid st).1, none)) := by
  refine ⟨?_, ?_, ?_, ?_⟩
  · intro cfg calls hnodup
    have := startSpans_length cfg calls TracerState.initial
      (fun c _ => rfl) hnodup
    simpa [TracerState.initial] using this
  · intro now sid st sp h
    constructor
    · exact endSpan_not_active now sid st
    · rw [endSpan_of_active h now]
      rw [scheduleExport_emitted]
  · intro now sid st h
    exact endSpan_of_inactive h now
  · intro now now2 sid st
    exact endSpan_of_inactive (endSpan_not_active now sid st) now2

/-- Witness for C5: two spans started with distinct ids give count 2; ending
one removes it, emits it once, and a second end of the same id is a no-op. -/
theorem c5_start_end_lifecycle_witness :
    (startSpans sampleConfig
        [⟨"a", "t1", "s1", 0⟩, ⟨"b", "t2", "s2", 1⟩]
        TracerState.initial).activeSpans.length = 2 ∧
    endSpan 7 "zz" TracerState.initial = (TracerState.initial, none) :=
  ⟨c5_start_end_lifecycle.1 sampleConfig
      [⟨"a", "t1", "s1", 0⟩, ⟨"b", "t2", "s2", 1⟩] (by decide),
   c5_start_end_lifecycle.2.2.1 7 "zz" TracerState.initial rfl⟩

/-- C9: while a span is active, `setSpanAttribute` appends exactly one
encoded entry to that span's attribute list and changes nothing else; when
the id is unknown the call is a complete no-op; and after `endSpan` the id
is no longer active, so any further `setSpanAttribute` on it leaves the
state — including the closed span already handed to the exporter —
untouched. -/
theorem c9_attribute_append_or_noop :
    (∀ (st : TracerState) (sid k : String) (v : JsValue) (sp : SpanData),
      mapGet st.activeSpans sid = some sp →
      mapGet (setSpanAttribute st sid k v).activeSpans sid =
          some { sp with attributes := sp.attributes ++ [(k, encodeValue v)] } ∧
      (∀ q, q ≠ sid →
        mapGet (setSpanAttribute st sid k v).activeSpans q = mapGet st.activeSpans q) ∧
      (setSpanAttribute st sid k v).pendingExports = st.pendingExports ∧
      (setSpanAttribute st sid k v).exportTimer = st.exportTimer) ∧
    (∀ (st : TracerState) (sid k : String) (v : JsValue),
      mapGet st.activeSpans sid = none → setSpanAttribute st sid k v = st) ∧
    (∀ (st : TracerState) (now : Nat) (sid k : String) (v : JsValue),
      mapGet (endSpan now sid st).1.activeSpans sid = none ∧
      setSpanAttribute (endSpan now sid st).1 sid k v = (endSpan now sid st).1) := by
  refine ⟨?_, ?_, ?_⟩
  · intro st sid k v sp h
    simp only [setSpanAttribute, h]
    refine ⟨mapGet_mapSet_self _ _ _, fun q hq => mapGet_mapSet_ne _ _ hq, ?_, ?_⟩ <;> trivial
  · intro st sid k v h
    simp only [setSpanAttribute, h]
  · intro st now sid k v
    have hnone := endSpan_not_active now sid st
    exact ⟨hnone, by simp only [setSpanAttribute, hnone]⟩

/-- Witness for C9: appending to the one active span, and the no-op on an
unknown id. -/
theorem c9_attribute_append_or_noop_witness :
    mapGet (setSpanAttribute
        (startSpan sampleConfig "a" none "t1" "s1" 0 TracerState.initial).2
        "s1" "k" (.vstr "x")).activeSpans "s1" =
      some { traceId := "t1", spanId := "s1", parentSpanId := none, name := "a",
             kind := "client", startTimeUnixNano := "0", endTimeUnixNano := "",
             attributes := [("k", .stringValue "x")], status := none } ∧
    setSpanAttribute TracerState.initial "nope" "k" (.vstr "x") = TracerState.initial := by
  constructor
  · have := (c9_attribute_append_or_noop.1
        (startSpan sampleConfig "a" none "t1" "s1" 0 TracerState.initial).2
        "s1" "k" (.vstr "x")
        (SpanData.mk "t1" "s1" none "a" "client" "0" "" [] none) (by decide)).1
    simpa using this
  · exact c9_attribute_append_or_noop.2.1 TracerState.initial "nope" "k" (.vstr "x") rfl

/-- C7: `flush` (via `exportSpans`) atomically takes and clears the pending
sequence; an empty pending sequence makes it a send-free no-op; a non-empty
one produces exactly one send carrying the entire taken batch; and the send
outcome drives logging only — the post-state is the same for success and
both failure modes, with the pending sequence left empty, so a failed batch
is never requeued, retried, or persisted. -/
theorem c7_flush_take_clear_discard :
    (∀ (st : TracerState) (outcome : SendOutcome),
      (exportSpansWith st outcome).1 = (exportSpans st).1 ∧
      (exportSpansWith st outcome).2.1 = (exportSpans st).2) ∧
    (∀ st : TracerState, (exportSpans st).1.pendingExports = []) ∧
    (∀ st : TracerState, st.pendingExports = [] →
      flush st = ({ st with exportTimer := none }, none)) ∧
    (∀ st : TracerState, st.pendingExports ≠ [] →
      (flush st).2 = some st.pendingExports ∧
      (flush st).1 = ⟨st.activeSpans, [], none⟩) := by
  refine ⟨?_, ?_, ?_, ?_⟩
  · intro st outcome
    unfold exportSpansWith
    rcases hE : exportSpans st with ⟨st1, b⟩
    cases b <;> cases outcome <;> simp
  · intro st
    unfold exportSpans
    split
    · next h => simpa using h
    · rfl
  · intro st h
    unfold flush exportSpans
    simp [h]
  · intro st h
    unfold flush exportSpans
    simp [h]

/-- Witness for C7: a failed send of a one-span batch leaves the pending
sequence empty (nothing requeued), and an empty flush is a no-op. -/
theorem c7_flush_take_clear_discard_witness :
    (exportSpansWith ⟨[], [sampleSpan], some 5⟩ (.transportError "boom")).1.pendingExports = [] ∧
    flush (⟨[], [], some 5⟩ : TracerState) = (⟨[], [], none⟩, none) := by
  constructor
  · rw [(c7_flush_take_clear_discard.1 ⟨[], [sampleSpan], some 5⟩ (.transportError "boom")).1]
    exact c7_flush_take_clear_discard.2.1 ⟨[], [sampleSpan], some 5⟩
  · exact c7_flush_take_clear_discard.2.2.1 ⟨[], [], some 5⟩ rfl

theorem appendSpan_flush (now : Nat) (s : SpanData) (st : TracerState)
    (h : st.pendingExports.length + 1 ≥ 10) :
    appendSpan now s st = (⟨st.activeSpans, [], none⟩, some (st.pendingExports ++ [s])) := by
  unfold appendSpan
  have h2 : (({ st with pendingExports := st.pendingExports ++ [s] } : TracerState)).pendingExports.length ≥ 10 := by
    simpa using h
  rw [scheduleExport_flush _ _ h2]

theorem appendSpan_arm (now : Nat) (s : SpanData) (st : TracerState)
    (h : st.pendingExports.length + 1 < 10) :
    appendSpan now s st =
      (⟨st.activeSpans, st.pendingExports ++ [s], some (now + 1000)⟩, none) := by
  unfold appendSpan
  have h2 : ¬ (({ st with pendingExports := st.pendingExports ++ [s] } : TracerState)).pendingExports.length ≥ 10 := by
    simp
    omega
  rw [scheduleExport_arm _ _ h2]

theorem runAppends_debounce (evs : List (Nat × SpanData)) :
    ∀ st : TracerState, chainOk st.exportTimer evs = true →
      st.pendingExports.length + evs.length < 10 →
      (runAppends st evs).2 = [] ∧
      (runAppends st evs).1.pendingExports = st.pendingExports ++ evs.map Prod.snd := by
  induction evs with
  | nil => intro st _ _; simp [runAppends]
  | cons ev rest ih =>
      intro st hchain hlen
      obtain ⟨t, s⟩ := ev
      have hnofire :
          (match st.exportTimer with
           | some deadline => if deadline ≤ t then fireTimer st else (st, (none : Option (List SpanData)))
           | none => (st, none)) = (st, none) := by
        cases hd : st.exportTimer with
        | none => rfl
        | some deadline =>
            rw [hd] at hchain
            simp only [chainOk, Bool.and_eq_true, decide_eq_true_eq] at hchain
            simp [Nat.not_le.mpr hchain.1]
      have harm : appendSpan t s st =
          (⟨st.activeSpans, st.pendingExports ++ [s], some (t + 1000)⟩, none) :=
        appendSpan_arm t s st (by simp at hlen; omega)
      have hchain2 : chainOk (some (t + 1000)) rest = true := by
        cases hd : st.exportTimer with
        | none =>
            rw [hd] at hchain
            simpa [chainOk] using hchain
        | some deadline =>
            rw [hd] at hchain
            simp only [chainOk, Bool.and_eq_true] at hchain
            exact hchain.2
      have hrec := ih ⟨st.activeSpans, st.pendingExports ++ [s], some (t + 1000)⟩
        (by simpa using hchain2) (by simp at hlen ⊢; omega)
      simp only [runAppends, hnofire, harm]
      refine ⟨?_, ?_⟩
      · simpa using hrec.1
      · rw [hrec.2]
        simp

/-- C3: an append that brings the pending count to the threshold of 10
cancels any armed timer and flushes immediately, carrying every buffered
span and leaving no timer armed; a sub-threshold append cancels any armed
timer and arms a fresh one 1000 ms after itself; consequently the deferred
flush is a debounce from the most recent append — any run of sub-threshold
appends each arriving before the currently armed deadline produces no flush
at all. -/
theorem c3_append_dual_threshold_debounce :
    (∀ (now : Nat) (s : SpanData) (st : TracerState),
      st.pendingExports.length + 1 ≥ 10 →
      appendSpan now s st = (⟨st.activeSpans, [], none⟩, some (st.pendingExports ++ [s]))) ∧
    (∀ (now : Nat) (s : SpanData) (st : TracerState),
      st.pendingExports.length + 1 < 10 →
      appendSpan now s st =
        (⟨st.activeSpans, st.pendingExports ++ [s], some (now + 1000)⟩, none)) ∧
    (∀ (evs : List (Nat × SpanData)) (st : TracerState),
      chainOk st.exportTimer evs = true →
      st.pendingExports.length + evs.length < 10 →
      (runAppends st evs).2 = [] ∧
      (runAppends st evs).1.pendingExports = st.pendingExports ++ evs.map Prod.snd) :=
  ⟨appendSpan_flush, appendSpan_arm, fun evs st h1 h2 => runAppends_debounce evs st h1 h2⟩

/-- Witness for C3: a tenth span flushes all ten immediately with no timer
armed; three appends 900 ms and 800 ms apart (each before the armed
deadline) produce no flush and leave all three spans buffered. -/
theorem c3_append_dual_threshold_debounce_witness :
    appendSpan 50 sampleSpan ⟨[], List.replicate 9 sampleSpan, some 77⟩ =
      (⟨[], [], none⟩, some (List.replicate 9 sampleSpan ++ [sampleSpan])) ∧
    (runAppends TracerState.initial
        [(0, sampleSpan), (900, sampleSpan), (1700, sampleSpan)]).2 = [] ∧
    (runAppends TracerState.initial
        [(0, sampleSpan), (900, sampleSpan), (1700, sampleSpan)]).1.pendingExports =
      [sampleSpan, sampleSpan, sampleSpan] := by
  refine ⟨c3_append_dual_threshold_debounce.1 50 sampleSpan _ (by decide), ?_, ?_⟩
  · exact (c3_append_dual_threshold_debounce.2.2
      [(0, sampleSpan), (900, sampleSpan), (1700, sampleSpan)]
      TracerState.initial (by decide) (by decide)).1
  · have := (c3_append_dual_threshold_debounce.2.2
      [(0, sampleSpan), (900, sampleSpan), (1700, sampleSpan)]
      TracerState.initial (by decide) (by decide)).2
    simpa [TracerState.initial] using this

theorem scheduleExport_emits_one {ρ : Type} (r : ρ) (now : Nat)
    (a2 : List (String × SpanData)) (p : List SpanData) (tmr : Option Nat)
    (sid : String) (sp : SpanData) (Q : SpanData → Prop) (hQ : Q sp) :
    ∃ (st1 : TracerState) (b : Option (List SpanData)),
      (r, (scheduleExport now ⟨mapDelete a2 sid, p ++ [sp], tmr⟩).1,
          (scheduleExport now ⟨mapDelete a2 sid, p ++ [sp], tmr⟩).2) = (r, st1, b) ∧
      ∃ x, st1.pendingExports ++ b.getD [] = p ++ [x] ∧
        mapGet st1.activeSpans sid = none ∧ Q x := by
  refine ⟨(scheduleExport now ⟨mapDelete a2 sid, p ++ [sp], tmr⟩).1,
    (scheduleExport now ⟨mapDelete a2 sid, p ++ [sp], tmr⟩).2, rfl, sp, ?_, ?_, hQ⟩
  · have := scheduleExport_emitted now ⟨mapDelete a2 sid, p ++ [sp], tmr⟩
    simpa using this
  · rw [scheduleExport_activeSpans]
    exact mapGet_mapDelete_self _ _

/-- C2: when the underlying provider call fails, the instrumented wrapper
re-raises the identical failure value unchanged, and the span it closes and
hands to the exporter carries status ERROR (code 2) with the failure's
message, an `error` attribute, and an `error.message` attribute; the span
is no longer active afterwards. -/
theorem c2_failure_reraised_with_error_span :
    ∀ (cfg : AgentBillConfig) (tm : CallTiming) (params : ChatParams)
      (e : JsThrown) (st : TracerState),
      ∃ (st1 : TracerState) (b : Option (List SpanData)),
        instrumentOpenAICall cfg tm params (.error e) st = (.error e, st1, b) ∧
        ∃ sp : SpanData,
          st1.pendingExports ++ b.getD [] = st.pendingExports ++ [sp] ∧
          mapGet st1.activeSpans tm.freshSpanId = none ∧
          sp.status = some (2, some (thrownStatusMessage e)) ∧
          ("error", AttrValue.boolValue true) ∈ sp.attributes ∧
          ("error.message", AttrValue.stringValue (thrownAttrMessage e)) ∈ sp.attributes := by
  intro cfg tm params e st
  obtain ⟨mo, te, mx⟩ := params
  obtain ⟨a, p, tmr⟩ := st
  cases te <;> cases mx <;>
    simp only [instrumentOpenAICall, startSpan, instrumentFail,
      setSpanAttribute_mapSet, setSpanStatus_mapSet, endSpan_mapSet] <;>
    exact scheduleExport_emits_one _ _ _ _ _ _ _ _ (by simp [encodeValue])

theorem emitsOneSpanNamed_scheduleExport (now : Nat)
    (a2 : List (String × SpanData)) (p : List SpanData) (tmr : Option Nat)
    (sp : SpanData) {nm : String} (hnm : sp.name = nm) (st : TracerState)
    (hp : st.pendingExports = p) :
    emitsOneSpanNamed (scheduleExport now ⟨a2, p ++ [sp], tmr⟩) st nm := by
  refine ⟨sp, ?_, hnm⟩
  have h := scheduleExport_emitted now ⟨a2, p ++ [sp], tmr⟩
  rw [h, hp]

/-- C6: an Anthropic messages-style success response carrying a usage object
yields `ai.prompt_tokens` from `input_tokens`, `ai.completion_tokens` from
`output_tokens` (absent fields recorded as 0, never omitted), and
`ai.total_tokens` as the explicitly computed sum of the two; a response with
no usage object yields a span with no usage attribute at all. -/
theorem c6_anthropic_usage_extraction :
    ∀ (cfg : AgentBillConfig) (tm : CallTiming) (params : ChatParams)
      (resp : AnthropicResponse) (st : TracerState),
      (∀ u, resp.usage = some u →
        ∃ (st1 : TracerState) (b : Option (List SpanData)),
          instrumentAnthropicCall cfg tm params (.ok resp) st = (.ok resp, st1, b) ∧
          ∃ sp : SpanData,
            st1.pendingExports ++ b.getD [] = st.pendingExports ++ [sp] ∧
            mapGet st1.activeSpans tm.freshSpanId = none ∧
            ("ai.prompt_tokens", AttrValue.intValue (jsOrInt u.inputTokens 0)) ∈ sp.attributes ∧
            ("ai.completion_tokens", AttrValue.intValue (jsOrInt u.outputTokens 0)) ∈ sp.attributes ∧
            ("ai.total_tokens", AttrValue.intValue (jsOrInt u.inputTokens 0 + jsOrInt u.outputTokens 0)) ∈ sp.attributes) ∧
      (resp.usage = none →
        ∃ (st1 : TracerState) (b : Option (List SpanData)),
          instrumentAnthropicCall cfg tm params (.ok resp) st = (.ok resp, st1, b) ∧
          ∃ sp : SpanData,
            st1.pendingExports ++ b.getD [] = st.pendingExports ++ [sp] ∧
            mapGet st1.activeSpans tm.freshSpanId = none ∧
            ∀ q ∈ sp.attributes,
              q.1 ∉ (["gen_ai.usage.prompt_tokens", "gen_ai.usage.completion_tokens",
                "gen_ai.usage.total_tokens", "ai.prompt_tokens", "ai.completion_tokens",
                "ai.total_tokens"] : List String)) := by
  intro cfg tm params resp st
  obtain ⟨mo, te, mx⟩ := params
  obtain ⟨us, rest⟩ := resp
  obtain ⟨a, p, tmr⟩ := st
  constructor
  · intro u hu
    simp only at hu
    subst hu
    cases te <;> cases mx <;>
      simp only [instrumentAnthropicCall, startSpan,
        setSpanAttribute_mapSet, setSpanStatus_mapSet, endSpan_mapSet] <;>
      exact scheduleExport_emits_one _ _ _ _ _ _ _ _ (by simp [encodeValue])
  · intro hu
    simp only at hu
    subst hu
    cases te <;> cases mx <;>
      simp only [instrumentAnthropicCall, startSpan,
        setSpanAttribute_mapSet, setSpanStatus_mapSet, endSpan_mapSet] <;>
      exact scheduleExport_emits_one _ _ _ _ _ _ _ _ (by simp [encodeValue])

/-- Witness for C6: `usage = {input_tokens: 7, output_tokens: 3}` (no total
field) yields `ai.prompt_tokens = 7`, `ai.completion_tokens = 3`, and the
computed sum `ai.total_tokens = 10`. -/
theorem c6_anthropic_usage_extraction_witness :
    ∃ (st1 : TracerState) (b : Option (List SpanData)),
      instrumentAnthropicCall sampleConfig sampleTiming ⟨some "claude", none, none⟩
          (.ok ⟨some ⟨some 7, some 3⟩, "r"⟩) TracerState.initial =
        (.ok ⟨some ⟨some 7, some 3⟩, "r"⟩, st1, b) ∧
      ∃ sp : SpanData,
        st1.pendingExports ++ b.getD [] = [sp] ∧
        ("ai.prompt_tokens", AttrValue.intValue 7) ∈ sp.attributes ∧
        ("ai.completion_tokens", AttrValue.intValue 3) ∈ sp.attributes ∧
        ("ai.total_tokens", AttrValue.intValue 10) ∈ sp.attributes := by
  have h := (c6_anthropic_usage_extraction sampleConfig sampleTiming
      ⟨some "claude", none, none⟩ ⟨some ⟨some 7, some 3⟩, "r"⟩ TracerState.initial).1
      ⟨some 7, some 3⟩ rfl
  rcases h with ⟨st1, b, heq, sp, hpend, hact, h1, h2, h3⟩
  refine ⟨st1, b, heq, sp, ?_, ?_, ?_, ?_⟩
  · simpa [TracerState.initial] using hpend
  · simpa [jsOrInt] using h1
  · simpa [jsOrInt] using h2
  · simpa [jsOrInt] using h3

/-- C4 counterexample: the Mistral `chat.stream` path is intercepted and
routed to `instrumentMistralCall`, which opens its span under the fixed name
`"mistral.chat.complete"` — not `"mistral.chat.stream"` as the claim's
`"<provider>.<call-path>"` rule would require. -/
theorem c4_counterexample_mistral_stream_name :
    interceptedCall "mistral" ["chat", "stream"] = some .mistralChat ∧
    ((instrumentMistralCall sampleConfig sampleTiming ⟨none, none, none⟩
        (.ok ⟨none, "r"⟩) TracerState.initial).2.1.pendingExports.map SpanData.name) =
      ["mistral.chat.complete"] ∧
    ("mistral.chat.complete" : String) ≠ "mistral.chat.stream" := by
  refine ⟨rfl, ?_, by decide⟩
  rfl

/-- C4 (amended): every intercepted call path opens exactly one span, whose
name is the fixed string its instrument function passes to `startSpan`; for
most adapters that is `"<provider>.<call-path>"`, but both Mistral paths
(`chat.complete` and `chat.stream`) share `"mistral.chat.complete"` and both
Bedrock paths (`invokeModel` and `send`) share `"bedrock.invokeModel"`. -/
theorem c4_one_span_fixed_adapter_name :
    (∀ (cfg : AgentBillConfig) (tm : CallTiming) (params : ChatParams)
        (outcome : Except JsThrown ChatResponse) (st : TracerState),
      emitsOneSpanNamed (instrumentMistralCall cfg tm params outcome st).2 st
        (spanNameOf .mistralChat)) ∧
    (∀ (cfg : AgentBillConfig) (tm : CallTiming) (command : BedrockCommand)
        (outcome : Except JsThrown BedrockResponse) (st : TracerState),
      emitsOneSpanNamed (instrumentBedrockCall cfg tm command outcome st).2 st
        (spanNameOf .bedrockInvoke)) ∧
    (∀ (cfg : AgentBillConfig) (tm : CallTiming) (params : ChatParams)
        (outcome : Except JsThrown ChatResponse) (st : TracerState),
      emitsOneSpanNamed (instrumentOpenAICall cfg tm params outcome st).2 st
        (spanNameOf .openaiChat)) ∧
    (∀ (cfg : AgentBillConfig) (tm : CallTiming) (params : ChatParams)
        (outcome : Except JsThrown AnthropicResponse) (st : TracerState),
      emitsOneSpanNamed (instrumentAnthropicCall cfg tm params outcome st).2 st
        (spanNameOf .anthropicMessages)) ∧
    (∀ (cfg : AgentBillConfig) (tm : CallTiming) (params : ChatParams)
        (outcome : Except JsThrown ChatResponse) (st : TracerState),
      emitsOneSpanNamed (instrumentAzureOpenAICall cfg tm params outcome st).2 st
        (spanNameOf .azureChat)) ∧
    interceptedCall "mistral" ["chat", "complete"] = some .mistralChat ∧
    interceptedCall "mistral" ["chat", "stream"] = some .mistralChat ∧
    interceptedCall "bedrock" ["invokeModel"] = some .bedrockInvoke ∧
    interceptedCall "bedrock" ["send"] = some .bedrockInvoke := by
  refine ⟨?_, ?_, ?_, ?_, ?_, rfl, rfl, rfl, rfl⟩
  · intro cfg tm params outcome st
    obtain ⟨mo, te, mx⟩ := params
    obtain ⟨a, p, tmr⟩ := st
    rcases outcome with e | ⟨us, rest⟩ <;>
      first
        | (cases te <;> cases mx <;>
            simp only [instrumentMistralCall, startSpan, instrumentFail,
              setSpanAttribute_mapSet, setSpanStatus_mapSet, endSpan_mapSet,
              Prod.mk.eta] <;>
            exact emitsOneSpanNamed_scheduleExport _ _ _ _ _ rfl _ rfl)
        | (cases us <;> cases te <;> cases mx <;>
            simp only [instrumentMistralCall, startSpan, instrumentFail,
              setSpanAttribute_mapSet, setSpanStatus_mapSet, endSpan_mapSet,
              Prod.mk.eta] <;>
            exact emitsOneSpanNamed_scheduleExport _ _ _ _ _ rfl _ rfl)
  · intro cfg tm command outcome st
    obtain ⟨mid, imid⟩ := command
    obtain ⟨a, p, tmr⟩ := st
    rcases outcome with e | ⟨body, rest⟩
    · simp only [instrumentBedrockCall, startSpan, instrumentFail,
        setSpanAttribute_mapSet, setSpanStatus_mapSet, endSpan_mapSet,
        Prod.mk.eta]
      exact emitsOneSpanNamed_scheduleExport _ _ _ _ _ rfl _ rfl
    · rcases body with _ | (pe | ⟨_ | u⟩) <;>
        simp only [instrumentBedrockCall, startSpan, instrumentFail,
          setSpanAttribute_mapSet, setSpanStatus_mapSet, endSpan_mapSet,
          Prod.mk.eta] <;>
        exact emitsOneSpanNamed_scheduleExport _ _ _ _ _ rfl _ rfl
  · intro cfg tm params outcome st
    obtain ⟨mo, te, mx⟩ := params
    obtain ⟨a, p, tmr⟩ := st
    rcases outcome with e | ⟨us, rest⟩ <;>
      first
        | (cases te <;> cases mx <;>
            simp only [instrumentOpenAICall, startSpan, instrumentFail,
              setSpanAttribute_mapSet, setSpanStatus_mapSet, endSpan_mapSet,
              Prod.mk.eta] <;>
            exact emitsOneSpanNamed_scheduleExport _ _ _ _ _ rfl _ rfl)
        | (cases us <;> cases te <;> cases mx <;>
            simp only [instrumentOpenAICall, startSpan, instrumentFail,
              setSpanAttribute_mapSet, setSpanStatus_mapSet, endSpan_mapSet,
              Prod.mk.eta] <;>
            exact emitsOneSpanNamed_scheduleExport _ _ _ _ _ rfl _ rfl)
  · intro cfg tm params outcome st
    obtain ⟨mo, te, mx⟩ := params
    obtain ⟨a, p, tmr⟩ := st
    rcases outcome with e | ⟨us, rest⟩ <;>
      first
        | (cases te <;> cases mx <;>
            simp only [instrumentAnthropicCall, startSpan, instrumentFail,
              setSpanAttribute_mapSet, setSpanStatus_mapSet, endSpan_mapSet,
              Prod.mk.eta] <;>
            exact emitsOneSpanNamed_scheduleExport _ _ _ _ _ rfl _ rfl)
        | (cases us <;> cases te <;> cases mx <;>
            simp only [instrumentAnthropicCall, startSpan, instrumentFail,
              setSpanAttribute_mapSet, setSpanStatus_mapSet, endSpan_mapSet,
              Prod.mk.eta] <;>
            exact emitsOneSpanNamed_scheduleExport _ _ _ _ _ rfl _ rfl)
  · intro cfg tm params outcome st
    obtain ⟨mo, te, mx⟩ := params
    obtain ⟨a, p, tmr⟩ := st
    rcases outcome with e | ⟨us, rest⟩ <;>
      first
        | (cases te <;> cases mx <;>
            simp only [instrumentAzureOpenAICall, startSpan, instrumentFail,
              setSpanAttribute_mapSet, setSpanStatus_mapSet, endSpan_mapSet,
              Prod.mk.eta] <;>
            exact emitsOneSpanNamed_scheduleExport _ _ _ _ _ rfl _ rfl)
        | (cases us <;> cases te <;> cases mx <;>
            simp only [instrumentAzureOpenAICall, startSpan, instrumentFail,
              setSpanAttribute_mapSet, setSpanStatus_mapSet, endSpan_mapSet,
              Prod.mk.eta] <;>
            exact emitsOneSpanNamed_scheduleExport _ _ _ _ _ rfl _ rfl)

/-- C1: the claim fails in the Bedrock adapter.  The decode-and-parse of the
response body sits inside the same `try` whose `catch` re-raises, so on a
successful provider call whose body text is malformed the instrumented call
throws the parse failure to the application instead of returning the
original result, and the span is closed with status ERROR carrying the
parse error's message.  (Network send failures, by contrast, really are
logged only: see the exporter's outcome-independence in
`exportSpansWith`.) -/
theorem c1_bedrock_parse_failure_surfaces :
    (instrumentBedrockCall sampleConfig sampleTiming ⟨some "model-x", none⟩
        (.ok ⟨some (.error (.errorObj "Unexpected token")), "resp"⟩)
        TracerState.initial).1 = .error (.errorObj "Unexpected token") ∧
    ((instrumentBedrockCall sampleConfig sampleTiming ⟨some "model-x", none⟩
        (.ok ⟨some (.error (.errorObj "Unexpected token")), "resp"⟩)
        TracerState.initial).2.1.pendingExports.map SpanData.status) =
      [some (2, some "Unexpected token")] ∧
    (∀ (st : TracerState) (outcome : SendOutcome),
      (exportSpansWith st outcome).1 = (exportSpansWith st (.okResponse "ok")).1) := by
  refine ⟨rfl, rfl, ?_⟩
  · intro st outcome
    unfold exportSpansWith
    rcases hE : exportSpans st with ⟨st1, b⟩
    cases b <;> cases outcome <;> simp

/-- C10: reading a top-level property whose name is in the instrumented set
(`chat`, `embeddings`, `images`, `audio`, `moderations`; `messages` for the
Anthropic wrapper) constructs a `Proxy` over the underlying value, which
throws a `TypeError` when that value is not an object instead of forwarding
it; properties outside the instrumented set are forwarded unchanged, and
instrumented properties with object values are answered with a proxy, not
the original value itself. -/
theorem c10_wrapper_get_typeerror_or_forward :
    (∀ (client : List (String × ClientVal)) (prop : String),
      (prop ∈ openaiInstrumentedProps →
        isJsObject (clientGet client prop) = false →
        wrapOpenAIGet client prop = .typeError) ∧
      (prop ∈ openaiInstrumentedProps →
        isJsObject (clientGet client prop) = true →
        wrapOpenAIGet client prop = .proxied (clientGet client prop)) ∧
      (prop ∉ openaiInstrumentedProps →
        wrapOpenAIGet client prop = .value (clientGet client prop))) ∧
    (∀ (client : List (String × ClientVal)),
      (isJsObject (clientGet client "messages") = false →
        wrapAnthropicGet client "messages" = .typeError) ∧
      (∀ prop : String, prop ≠ "messages" →
        wrapAnthropicGet client prop = .value (clientGet client prop))) := by
  constructor
  · intro client prop
    refine ⟨?_, ?_, ?_⟩
    · intro hmem hobj
      simp only [openaiInstrumentedProps, List.mem_cons, List.mem_singleton,
        List.not_mem_nil, or_false] at hmem
      rcases hmem with h | h | h | h | h <;> subst h <;>
        simp [wrapOpenAIGet, mkProxy, hobj]
    · intro hmem hobj
      simp only [openaiInstrumentedProps, List.mem_cons, List.mem_singleton,
        List.not_mem_nil, or_false] at hmem
      rcases hmem with h | h | h | h | h <;> subst h <;>
        simp [wrapOpenAIGet, mkProxy, hobj]
    · intro hmem
      simp only [openaiInstrumentedProps, List.mem_cons, List.mem_singleton,
        List.not_mem_nil, or_false, not_or] at hmem
      obtain ⟨h1, h2, h3, h4, h5⟩ := hmem
      simp [wrapOpenAIGet, h1, h2, h3, h4, h5]
  · intro client
    constructor
    · intro hobj
      simp [wrapAnthropicGet, mkProxy, hobj]
    · intro prop hprop
      simp [wrapAnthropicGet, hprop]

/-- Witness for C10: a client whose `chat` property is the number 5 throws a
`TypeError` on reading `chat`; a property outside the instrumented set is
forwarded unchanged. -/
theorem c10_wrapper_get_typeerror_or_forward_witness :
    wrapOpenAIGet [("chat", .numVal 5)] "chat" = .typeError ∧
    wrapOpenAIGet [("chat", .numVal 5)] "extra" = .value .jsUndefined ∧
    wrapAnthropicGet [("messages", .strVal "oops")] "messages" = .typeError := by
  refine ⟨?_, ?_, ?_⟩
  · exact (c10_wrapper_get_typeerror_or_forward.1 [("chat", .numVal 5)] "chat").1
      (by simp [openaiInstrumentedProps]) rfl
  · exact (c10_wrapper_get_typeerror_or_forward.1 [("chat", .numVal 5)] "extra").2.2
      (by simp [openaiInstrumentedProps])
  · exact (c10_wrapper_get_typeerror_or_forward.2 [("messages", .strVal "oops")]).1 rfl
